import Mathlib

/-!
Verification development for the `ML_Algorithms` repository, file
`Practice/CNN/cnn.ipynb`.

The notebook defines a convolutional neural network

  CNN: layer1 = Conv2d(1, 16, kernel_size=5, stride=1, padding=2); ReLU; MaxPool2d(2, 2)
       layer2 = Conv2d(16, 32, kernel_size=5, stride=1, padding=2); ReLU; MaxPool2d(2, 2)
       fc1    = Linear(7*7*32, num_classes)
  forward(x) = fc1(reshape(layer2(layer1(x)), (x.size(0), -1)))

trains it with a `for epoch in range(num_epoch): for (images, labels) in loader:`
loop (forward, loss, zero_grad, backward, step per batch), and evaluates it in a
`torch.no_grad()` block accumulating `correct` and `total` counters and printing
`100*correct/total`.

We embed tensors as shape-annotated rational-valued arrays (index functions),
the layer operations as shape-checked `Option`-returning functions translated
from the library semantics the notebook invokes, and the training/evaluation
loops as event-emitting state transformers.  Library-internal numerics that
the repository merely calls (loss value, autodiff gradients, the optimizer's
update rule, the data loader's shuffle) are abstracted as parameters or
modelled from the specification and are marked as such.
-/

/-- Dense rank-4 tensor (batch × channels × height × width) of rationals;
`data b c i j` is the entry at batch index `b`, channel `c`, row `i`, column `j`.
Entries outside the shape bounds are irrelevant junk. -/
structure Tensor4 where
  batch : Nat
  channels : Nat
  height : Nat
  width : Nat
  data : Nat → Nat → Nat → Nat → ℚ

/-- Dense rank-2 tensor (rows × cols) of rationals. -/
structure Tensor2 where
  rows : Nat
  cols : Nat
  data : Nat → Nat → ℚ

/-- Zero-padded read of a rank-4 tensor: `pad` rows/columns of zeros on every
spatial side, exactly as `padding=2` does in `nn.Conv2d(..., padding=2)`. -/
def padRead (x : Tensor4) (pad : Nat) (b c r s : Nat) : ℚ :=
  if pad ≤ r ∧ r < x.height + pad ∧ pad ≤ s ∧ s < x.width + pad then
    x.data b c (r - pad) (s - pad)
  else 0

/-- Semantics of `nn.Conv2d(inC, outC, kernel_size=k, stride=stride, padding=pad)`
applied to a batched input: fails (the library raises) when the channel count
does not match or the padded spatial extent is smaller than the kernel;
otherwise each output entry is the bias plus the kernel-weighted sum over the
input window.  Output spatial size is `(n + 2*pad - k)/stride + 1`. -/
def conv2d (inC outC k stride pad : Nat) (weight : Nat → Nat → Nat → Nat → ℚ)
    (bias : Nat → ℚ) (x : Tensor4) : Option Tensor4 :=
  if x.channels = inC ∧ k ≤ x.height + 2*pad ∧ k ≤ x.width + 2*pad then
    some { batch := x.batch
           channels := outC
           height := (x.height + 2*pad - k)/stride + 1
           width := (x.width + 2*pad - k)/stride + 1
           data := fun b o i j =>
             bias o + ∑ c ∈ Finset.range inC, ∑ p ∈ Finset.range k,
               ∑ q ∈ Finset.range k,
                 weight o c p q * padRead x pad b c (i*stride + p) (j*stride + q) }
  else none

/-- Semantics of `nn.ReLU()`: pointwise `max 0`; shape is unchanged and the
operation never fails. -/
def relu (x : Tensor4) : Tensor4 :=
  { x with data := fun b c i j => max 0 (x.data b c i j) }

/-- Semantics of `nn.MaxPool2d(kernel_size=k, stride=stride)` (no padding):
fails when the input is spatially smaller than the kernel; otherwise each
output entry is the maximum of the `k × k` window.  Output spatial size is
`(n - k)/stride + 1`. -/
def maxPool2d (k stride : Nat) (x : Tensor4) : Option Tensor4 :=
  if k ≤ x.height ∧ k ≤ x.width then
    some { batch := x.batch
           channels := x.channels
           height := (x.height - k)/stride + 1
           width := (x.width - k)/stride + 1
           data := fun b c i j =>
             ((List.range k).flatMap (fun p =>
                 (List.range k).map (fun q =>
                   x.data b c (i*stride + p) (j*stride + q)))).foldr
               max (x.data b c (i*stride) (j*stride)) }
  else none

/-- Semantics of `out.reshape(out.size(0), -1)`: flattens each sample of a
rank-4 tensor to a row of `channels*height*width` features (row-major over
channel, then row, then column).  The library rejects inferring `-1` when the
product of the known dimensions is zero, so an empty batch fails. -/
def reshapeFlatten (x : Tensor4) : Option Tensor2 :=
  if 1 ≤ x.batch then
    some { rows := x.batch
           cols := x.channels * x.height * x.width
           data := fun b f =>
             x.data b (f / (x.height * x.width)) (f / x.width % x.height)
               (f % x.width) }
  else none

/-- Semantics of `nn.Linear(inF, outF)` applied to a rank-2 input: fails when
the feature dimension does not equal `inF`; otherwise an affine map per row. -/
def linear (inF outF : Nat) (weight : Nat → Nat → ℚ) (bias : Nat → ℚ)
    (x : Tensor2) : Option Tensor2 :=
  if x.cols = inF then
    some { rows := x.rows
           cols := outF
           data := fun b o =>
             bias o + ∑ f ∈ Finset.range inF, weight o f * x.data b f }
  else none

/-- Learnable parameters of the notebook's `CNN` module: the two convolution
kernels with their biases and the fully-connected layer's weight and bias. -/
structure CNNParams where
  conv1w : Nat → Nat → Nat → Nat → ℚ
  conv1b : Nat → ℚ
  conv2w : Nat → Nat → Nat → Nat → ℚ
  conv2b : Nat → ℚ
  fc1w : Nat → Nat → ℚ
  fc1b : Nat → ℚ

/-- The notebook instantiates the model as `CNN(10)` for the ten MNIST classes. -/
def numClasses : Nat := 10

/-- The notebook trains for `num_epoch = 10` epochs. -/
def numEpoch : Nat := 10

/-- First block of the model, `self.layer1`:
`nn.Sequential(nn.Conv2d(1, 16, kernel_size=5, stride=1, padding=2), nn.ReLU(), nn.MaxPool2d(kernel_size=2, stride=2))`. -/
def CNN.layer1 (p : CNNParams) (x : Tensor4) : Option Tensor4 :=
  (conv2d 1 16 5 1 2 p.conv1w p.conv1b x).bind fun a => maxPool2d 2 2 (relu a)

/-- Second block of the model, `self.layer2`:
`nn.Sequential(nn.Conv2d(16, 32, kernel_size=5, stride=1, padding=2), nn.ReLU(), nn.MaxPool2d(kernel_size=2, stride=2))`. -/
def CNN.layer2 (p : CNNParams) (x : Tensor4) : Option Tensor4 :=
  (conv2d 16 32 5 1 2 p.conv2w p.conv2b x).bind fun a => maxPool2d 2 2 (relu a)

/-- The model's `forward`: `out = self.layer1(x); out = self.layer2(out);
out = out.reshape(out.size(0), -1); out = self.fc1(out); return out` with
`self.fc1 = nn.Linear(7*7*32, num_classes)`. -/
def CNN.forward (p : CNNParams) (x : Tensor4) : Option Tensor2 :=
  (CNN.layer1 p x).bind fun o1 =>
    (CNN.layer2 p o1).bind fun o2 =>
      (reshapeFlatten o2).bind fun flat =>
        linear (7*7*32) numClasses p.fc1w p.fc1b flat

/-- The forward pass as run inside the evaluation context of the notebook
(`model.eval()` and `with torch.no_grad():`).  Every layer the model contains —
`Conv2d`, `ReLU`, `MaxPool2d`, `Linear` — computes the same values in training
and evaluation mode and with or without gradient recording (the notebook's own
text notes that only layers such as Dropout and BatchNorm, absent here, behave
differently); the flags steer gradient bookkeeping only, which produces no
numeric output, so the computation does not consult them. -/
def CNN.forwardMode (gradEnabled training : Bool) (p : CNNParams)
    (x : Tensor4) : Option Tensor2 :=
  CNN.forward p x

/-- All-zero parameter state (used to evaluate the model at concrete inputs). -/
def zeroParams : CNNParams :=
  { conv1w := fun _ _ _ _ => 0
    conv1b := fun _ => 0
    conv2w := fun _ _ _ _ => 0
    conv2b := fun _ => 0
    fc1w := fun _ _ => 0
    fc1b := fun _ => 0 }

/-- A concrete all-zero MNIST-shaped input: one sample, 1 × 28 × 28. -/
def input28 : Tensor4 :=
  { batch := 1, channels := 1, height := 28, width := 28, data := fun _ _ _ _ => 0 }

/-- A concrete all-zero single-channel input of spatial size 196 × 4. -/
def input196x4 : Tensor4 :=
  { batch := 1, channels := 1, height := 196, width := 4, data := fun _ _ _ _ => 0 }

/-- One training or evaluation step of the script, recorded for ordering
arguments: `epoch` and `i` locate the batch the step acted on. -/
inductive TrainEvent where
  | forwardPass (epoch i : Nat)
  | lossComp (epoch i : Nat)
  | zeroGrad (epoch i : Nat)
  | optimStep (epoch i : Nat)
  | backwardPass (epoch i : Nat)
  | evalBatch (i : Nat)
  deriving DecidableEq, Repr

/-- A `(images, labels)` pair produced by the data loader. -/
structure MNISTBatch where
  images : Tensor4
  labels : List Nat

/-- Modelled from the spec: the off-the-shelf library facilities the notebook
delegates to (§2 of the spec) — the model's forward pass, the classification
loss `criterion`, automatic differentiation (`loss.backward()`), and the
gradient-descent-family optimizer update (`optimizer.step()`).  Their numeric
internals are not part of the repository, so they are abstract fields; the
loop theorems hold for every instantiation. -/
structure TorchLib (P G : Type) where
  modelForward : P → Tensor4 → Option Tensor2
  criterion : Tensor2 → List Nat → ℚ
  backwardGrad : P → ℚ → MNISTBatch → G
  optimStep : P → G → P

/-- Body of the inner training loop for one batch: `outputs = model(images)`,
`loss = criterion(outputs, labels)`, `optimizer.zero_grad()`,
`loss.backward()`, `optimizer.step()`.  A failing forward pass propagates as
`none` (the process terminates, spec §7); otherwise the chained data
dependencies force the forward → loss → backward → update order and the
returned trace records it. -/
def trainStep {P G : Type} (lib : TorchLib P G) (e i : Nat) (p : P)
    (b : MNISTBatch) : Option P × List TrainEvent :=
  match lib.modelForward p b.images with
  | none => (none, [TrainEvent.forwardPass e i])
  | some outs =>
    let lossVal := lib.criterion outs b.labels
    let g := lib.backwardGrad p lossVal b
    (some (lib.optimStep p g),
      [TrainEvent.forwardPass e i, TrainEvent.lossComp e i,
       TrainEvent.zeroGrad e i, TrainEvent.backwardPass e i,
       TrainEvent.optimStep e i])

/-- The inner loop `for i, (images, labels) in enumerate(train_data_loader):`
of epoch `e`, starting from batch index `i`: each batch is fully processed
before the next begins, and processing stops at the first failure. -/
def trainBatches {P G : Type} (lib : TorchLib P G) (e : Nat) :
    Nat → P → List MNISTBatch → Option P × List TrainEvent
  | _, p, [] => (some p, [])
  | i, p, b :: rest =>
    match trainStep lib e i p b with
    | (none, evs) => (none, evs)
    | (some p1, evs) =>
      let r := trainBatches lib e (i+1) p1 rest
      (r.1, evs ++ r.2)

/-- The outer loop over the listed epoch indices, threading the parameters. -/
def trainEpochs {P G : Type} (lib : TorchLib P G) (batches : List MNISTBatch) :
    List Nat → P → Option P × List TrainEvent
  | [], p => (some p, [])
  | e :: es, p =>
    match trainBatches lib e 0 p batches with
    | (none, evs) => (none, evs)
    | (some p1, evs) =>
      let r := trainEpochs lib batches es p1
      (r.1, evs ++ r.2)

/-- The training loop `for epoch in range(num_epoch): for i, (images, labels)
in enumerate(train_data_loader): ...`. -/
def trainLoop {P G : Type} (lib : TorchLib P G) (nEpochs : Nat)
    (batches : List MNISTBatch) (p : P) : Option P × List TrainEvent :=
  trainEpochs lib batches (List.range nEpochs) p

/-- Process-local state visible to the evaluation block: the model parameters
and the two running counters. -/
structure ProcState (P : Type) where
  params : P
  correct : Nat
  total : Nat
  deriving DecidableEq

/-- Row argmax, the `predicted` of `_, predicted = torch.max(outputs.data, 1)`:
index of the row maximum, the first one in case of ties. -/
def argmaxRow (o : Tensor2) (b : Nat) : Nat :=
  (List.range o.cols).foldl (fun best j => if o.data b best < o.data b j then j else best) 0

/-- Number of matching positions of `(predicted == labels).sum().item()` for
one batch of outputs. -/
def correctInBatch (o : Tensor2) (labels : List Nat) : Nat :=
  (((List.range o.rows).map (argmaxRow o)).zip labels).countP
    (fun pl => pl.1 == pl.2)

/-- Matches contributed by one batch under parameter state `p` (zero is never
used when the forward pass succeeds). -/
def correctOfBatch {P : Type} (modelF : P → Tensor4 → Option Tensor2) (p : P)
    (b : MNISTBatch) : Nat :=
  match modelF p b.images with
  | some o => correctInBatch o b.labels
  | none => 0

/-- The evaluation loop `for images, labels in test_data_loader:` starting at
batch index `i`: per batch it runs the forward pass, takes the row argmax,
adds `labels.size(0)` to `total` and the match count to `correct`; the model
parameters are only read.  A failing forward pass propagates as `none`. -/
def evalBatches {P : Type} (modelF : P → Tensor4 → Option Tensor2) :
    Nat → ProcState P → List MNISTBatch → Option (ProcState P) × List TrainEvent
  | _, s, [] => (some s, [])
  | i, s, b :: rest =>
    match modelF s.params b.images with
    | none => (none, [TrainEvent.evalBatch i])
    | some outs =>
      let s1 : ProcState P :=
        { s with total := s.total + b.labels.length
                 correct := s.correct + correctInBatch outs b.labels }
      let r := evalBatches modelF (i+1) s1 rest
      (r.1, TrainEvent.evalBatch i :: r.2)

/-- The whole evaluation block (the notebook's last code cell): `correct = 0`,
`total = 0`, then the loop over the test batches. -/
def evalBlock {P : Type} (modelF : P → Tensor4 → Option Tensor2)
    (batches : List MNISTBatch) (s : ProcState P) :
    Option (ProcState P) × List TrainEvent :=
  evalBatches modelF 0 { s with correct := 0, total := 0 } batches

/-- The percentage printed by `print('ACC: {}%'.format(100*correct/total))`
(Python's true division on the accumulated counters). -/
def accuracy {P : Type} (s : ProcState P) : ℚ :=
  100 * (s.correct : ℚ) / (s.total : ℚ)

/-- The executable part of the notebook after setup: the training loop over
`train_data_loader`, then — strictly afterwards — the no-gradient evaluation
block over `test_data_loader`. -/
def fullProgram {P G : Type} (lib : TorchLib P G) (nEpochs : Nat)
    (trainData testData : List MNISTBatch) (s : ProcState P) :
    Option (ProcState P) × List TrainEvent :=
  match trainLoop lib nEpochs trainData s.params with
  | (none, evs) => (none, evs)
  | (some p1, evs) =>
    let r := evalBlock lib.modelForward testData { s with params := p1 }
    (r.1, evs ++ r.2)

/-- Modelled from the spec: the data loader's seed-determined shuffling of the
training batches (`DataLoader(..., shuffle=True)` is library functionality,
not in the repository); any deterministic permutation keyed by the seed is a
faithful model, here a rotation. -/
def shuffleWithSeed {α : Type} (seed : Nat) (l : List α) : List α :=
  l.drop (seed % (l.length + 1)) ++ l.take (seed % (l.length + 1))

/-- One run of the training procedure under a random seed: the seed fixes the
data ordering, then the deterministic loop runs for `num_epoch` epochs. -/
def trainingRun {G : Type} (lib : TorchLib CNNParams G) (seed : Nat)
    (batches : List MNISTBatch) (p : CNNParams) :
    Option CNNParams × List TrainEvent :=
  trainLoop lib numEpoch (shuffleWithSeed seed batches) p

/-- Address of one scalar entry in the model's parameter set. -/
inductive ParamIx where
  | c1w (o c i j : Nat)
  | c1b (o : Nat)
  | c2w (o c i j : Nat)
  | c2b (o : Nat)
  | fw (o f : Nat)
  | fb (o : Nat)
  deriving DecidableEq

/-- Every live parameter address of the model: the 16·1·5·5 + 16 entries of
`conv1`, the 32·16·5·5 + 32 entries of `conv2`, and the 10·1568 + 10 entries
of `fc1`. -/
def paramIxs : List ParamIx :=
  ((List.range 16).flatMap fun o => (List.range 1).flatMap fun c =>
    (List.range 5).flatMap fun i => (List.range 5).map fun j =>
      ParamIx.c1w o c i j)
  ++ (List.range 16).map ParamIx.c1b
  ++ ((List.range 32).flatMap fun o => (List.range 16).flatMap fun c =>
    (List.range 5).flatMap fun i => (List.range 5).map fun j =>
      ParamIx.c2w o c i j)
  ++ (List.range 32).map ParamIx.c2b
  ++ ((List.range numClasses).flatMap fun o =>
    (List.range (7*7*32)).map fun f => ParamIx.fw o f)
  ++ (List.range numClasses).map ParamIx.fb

/-- Read one scalar parameter entry. -/
def readParam (p : CNNParams) : ParamIx → ℚ
  | .c1w o c i j => p.conv1w o c i j
  | .c1b o => p.conv1b o
  | .c2w o c i j => p.conv2w o c i j
  | .c2b o => p.conv2b o
  | .fw o f => p.fc1w o f
  | .fb o => p.fc1b o

/-- Chebyshev-style distance between two parameter states: the largest
absolute difference over all live parameter entries. -/
def paramDist (p q : CNNParams) : ℚ :=
  (paramIxs.map fun ix => |readParam p ix - readParam q ix|).foldr max 0

/-- Library instantiation over a scalar parameter type with a constant-zero
model output of the right shape and an optimizer that increments the
parameter, used to run the loops at concrete inputs. -/
def natLib : TorchLib Nat Unit :=
  { modelForward := fun _ x =>
      some { rows := x.batch, cols := numClasses, data := fun _ _ => 0 }
    criterion := fun _ _ => 0
    backwardGrad := fun _ _ _ => ()
    optimStep := fun p _ => p + 1 }

/-- Library instantiation over the real parameter type with a do-nothing
optimizer, used to run `trainingRun` at concrete inputs. -/
def cnnLib : TorchLib CNNParams Unit :=
  { modelForward := CNN.forward
    criterion := fun _ _ => 0
    backwardGrad := fun _ _ _ => ()
    optimStep := fun p _ => p }

/-- Concrete two-sample batch with labels 0 and 1 (all-zero images). -/
def batch2 : MNISTBatch :=
  { images := { batch := 2, channels := 1, height := 28, width := 28,
                data := fun _ _ _ _ => 0 }
    labels := [0, 1] }

/-- Concrete starting process state with junk counter values. -/
def initState : ProcState Nat :=
  { params := 42, correct := 5, total := 7 }
/-- Associativity of `Option.bind`, used to flatten the layer pipeline. -/
lemma option_bind_assoc {α β γ : Type} (o : Option α) (f : α → Option β)
    (g : β → Option γ) :
    (o.bind f).bind g = o.bind fun a => (f a).bind g := by
  cases o <;> rfl

/-- Binding a conditional `some` against a continuation. -/
lemma if_some_bind {α β : Type} (c : Prop) [Decidable c] (a : α)
    (f : α → Option β) :
    (if c then some a else none).bind f = if c then f a else none := by
  split <;> rfl

/-- C1: the model's forward computation applies, in order, convolution
(1 → 16 channels, kernel 5, stride 1, padding 2), ReLU, 2×2/stride-2 max
pooling, then convolution (16 → 32 channels, kernel 5, stride 1, padding 2),
ReLU, 2×2/stride-2 max pooling, then a per-sample flatten, then the single
fully-connected layer with `7*7*32` inputs and `num_classes = 10` outputs —
and nothing else. -/
theorem cnn_forward_structure (p : CNNParams) (x : Tensor4) :
    CNN.forward p x =
      (conv2d 1 16 5 1 2 p.conv1w p.conv1b x).bind fun a1 =>
        (maxPool2d 2 2 (relu a1)).bind fun o1 =>
          (conv2d 16 32 5 1 2 p.conv2w p.conv2b o1).bind fun a2 =>
            (maxPool2d 2 2 (relu a2)).bind fun o2 =>
              (reshapeFlatten o2).bind fun flat =>
                linear (7*7*32) 10 p.fc1w p.fc1b flat := by
  simp only [CNN.forward, CNN.layer1, CNN.layer2, numClasses, option_bind_assoc]

/-- C3: the forward pass computes the same outputs whether or not gradient
tracking is enabled and whether the model is in training or evaluation mode:
on equal parameters and equal inputs the two runs agree exactly. -/
theorem cnn_forward_mode_independent (g1 t1 g2 t2 : Bool) (p1 p2 : CNNParams)
    (x1 x2 : Tensor4) (hp : p1 = p2) (hx : x1 = x2) :
    CNN.forwardMode g1 t1 p1 x1 = CNN.forwardMode g2 t2 p2 x2 := by
  subst hp; subst hx; rfl

/-- Witness for C3 at a concrete input: the no-gradient/eval-mode run equals
the gradient-enabled/training-mode run on `input28` with zero parameters. -/
theorem cnn_forward_mode_independent_witness :
    zeroParams = zeroParams ∧ input28 = input28 ∧
      CNN.forwardMode false false zeroParams input28 =
        CNN.forwardMode true true zeroParams input28 :=
  ⟨rfl, rfl,
    cnn_forward_mode_independent false false true true zeroParams zeroParams
      input28 input28 rfl rfl⟩

/-- Shape of a successful convolution output, read off the guard branch. -/
lemma conv2d_some_shape {inC outC k s pad : Nat} {w : Nat → Nat → Nat → Nat → ℚ}
    {bi : Nat → ℚ} {x t : Tensor4}
    (h : conv2d inC outC k s pad w bi x = some t) :
    t.batch = x.batch ∧ t.channels = outC ∧
      t.height = (x.height + 2*pad - k)/s + 1 ∧
      t.width = (x.width + 2*pad - k)/s + 1 := by
  unfold conv2d at h
  split at h
  · simp only [Option.some.injEq] at h
    subst h
    exact ⟨rfl, rfl, rfl, rfl⟩
  · cases h

/-- Success condition of the convolution: matching channels and a padded
extent at least as large as the kernel. -/
lemma conv2d_isSome {inC outC k s pad : Nat} {w : Nat → Nat → Nat → Nat → ℚ}
    {bi : Nat → ℚ} {x : Tensor4} :
    (conv2d inC outC k s pad w bi x).isSome = true ↔
      (x.channels = inC ∧ k ≤ x.height + 2*pad ∧ k ≤ x.width + 2*pad) := by
  unfold conv2d
  split <;> simp_all

/-- Shape of a successful max-pooling output. -/
lemma maxPool2d_some_shape {k s : Nat} {x t : Tensor4}
    (h : maxPool2d k s x = some t) :
    t.batch = x.batch ∧ t.channels = x.channels ∧
      t.height = (x.height - k)/s + 1 ∧ t.width = (x.width - k)/s + 1 := by
  unfold maxPool2d at h
  split at h
  · simp only [Option.some.injEq] at h
    subst h
    exact ⟨rfl, rfl, rfl, rfl⟩
  · cases h

/-- Success condition of max pooling: the input is at least kernel-sized. -/
lemma maxPool2d_isSome {k s : Nat} {x : Tensor4} :
    (maxPool2d k s x).isSome = true ↔ (k ≤ x.height ∧ k ≤ x.width) := by
  unfold maxPool2d
  split <;> simp_all

/-- ReLU leaves every shape field unchanged. -/
lemma relu_shape (x : Tensor4) :
    (relu x).batch = x.batch ∧ (relu x).channels = x.channels ∧
      (relu x).height = x.height ∧ (relu x).width = x.width :=
  ⟨rfl, rfl, rfl, rfl⟩

/-- Shape of a successful flatten: one row per sample, one feature per entry. -/
lemma reshapeFlatten_some_shape {x : Tensor4} {t : Tensor2}
    (h : reshapeFlatten x = some t) :
    t.rows = x.batch ∧ t.cols = x.channels * x.height * x.width := by
  unfold reshapeFlatten at h
  split at h
  · simp only [Option.some.injEq] at h
    subst h
    exact ⟨rfl, rfl⟩
  · cases h

/-- Success condition of `reshape(out.size(0), -1)`: a nonempty batch. -/
lemma reshapeFlatten_isSome {x : Tensor4} :
    (reshapeFlatten x).isSome = true ↔ 1 ≤ x.batch := by
  unfold reshapeFlatten
  split <;> simp_all

/-- Shape of a successful fully-connected output. -/
lemma linear_some_shape {inF outF : Nat} {w : Nat → Nat → ℚ} {bi : Nat → ℚ}
    {x t : Tensor2} (h : linear inF outF w bi x = some t) :
    t.rows = x.rows ∧ t.cols = outF := by
  unfold linear at h
  split at h
  · simp only [Option.some.injEq] at h
    subst h
    exact ⟨rfl, rfl⟩
  · cases h

/-- Success condition of the fully-connected layer: exact feature count. -/
lemma linear_isSome {inF outF : Nat} {w : Nat → Nat → ℚ} {bi : Nat → ℚ}
    {x : Tensor2} :
    (linear inF outF w bi x).isSome = true ↔ x.cols = inF := by
  unfold linear
  split <;> simp_all

/-- C2: whenever the forward pass succeeds, the output has exactly as many
rows as the input has samples (axis 0 is preserved). -/
theorem cnn_forward_preserves_batch (p : CNNParams) (x : Tensor4)
    (h : (CNN.forward p x).isSome = true) :
    (CNN.forward p x).map Tensor2.rows = some x.batch := by
  obtain ⟨y, hy⟩ := Option.isSome_iff_exists.mp h
  rw [hy, Option.map_some']
  congr 1
  unfold CNN.forward CNN.layer1 CNN.layer2 at hy
  simp only [option_bind_assoc, Option.bind_eq_some] at hy
  obtain ⟨a1, hc1, o1, hp1, a2, hc2, o2, hp2, flat, hr, hl⟩ := hy
  have e1 := (conv2d_some_shape hc1).1
  have e2 := (maxPool2d_some_shape hp1).1
  have e3 := (conv2d_some_shape hc2).1
  have e4 := (maxPool2d_some_shape hp2).1
  have e5 := (reshapeFlatten_some_shape hr).1
  have e6 := (linear_some_shape hl).1
  rw [e6, e5, e4, (relu_shape a2).1, e3, e2, (relu_shape a1).1, e1]

/-- Witness for C2: on the all-zero 1 × 1 × 28 × 28 input the forward pass
succeeds and reports one output row. -/
theorem cnn_forward_preserves_batch_witness :
    (CNN.forward zeroParams input28).isSome = true ∧
      (CNN.forward zeroParams input28).map Tensor2.rows = some 1 :=
  ⟨by decide, cnn_forward_preserves_batch zeroParams input28 (by decide)⟩


/-- Binding a known `some` value. -/
lemma some_bind {α β : Type} (a : α) (f : α → Option β) :
    (some a).bind f = f a := rfl

/-- A successful convolution certifies its guard. -/
lemma conv2d_some_cond {inC outC k s pad : Nat} {w : Nat → Nat → Nat → Nat → ℚ}
    {bi : Nat → ℚ} {x t : Tensor4}
    (h : conv2d inC outC k s pad w bi x = some t) :
    x.channels = inC ∧ k ≤ x.height + 2*pad ∧ k ≤ x.width + 2*pad := by
  unfold conv2d at h
  split at h
  · assumption
  · cases h

/-- The guard makes the convolution succeed. -/
lemma conv2d_some_of (inC outC k s pad : Nat) (w : Nat → Nat → Nat → Nat → ℚ)
    (bi : Nat → ℚ) (x : Tensor4) (h1 : x.channels = inC)
    (h2 : k ≤ x.height + 2*pad) (h3 : k ≤ x.width + 2*pad) :
    ∃ t, conv2d inC outC k s pad w bi x = some t := by
  unfold conv2d
  exact ⟨_, if_pos ⟨h1, h2, h3⟩⟩

/-- A successful max pooling certifies its guard. -/
lemma maxPool2d_some_cond {k s : Nat} {x t : Tensor4}
    (h : maxPool2d k s x = some t) : k ≤ x.height ∧ k ≤ x.width := by
  unfold maxPool2d at h
  split at h
  · assumption
  · cases h

/-- The guard makes the max pooling succeed. -/
lemma maxPool2d_some_of (k s : Nat) (x : Tensor4) (h1 : k ≤ x.height)
    (h2 : k ≤ x.width) : ∃ t, maxPool2d k s x = some t := by
  unfold maxPool2d
  exact ⟨_, if_pos ⟨h1, h2⟩⟩

/-- A successful flatten certifies a nonempty batch. -/
lemma reshapeFlatten_some_cond {x : Tensor4} {t : Tensor2}
    (h : reshapeFlatten x = some t) : 1 ≤ x.batch := by
  unfold reshapeFlatten at h
  split at h
  · assumption
  · cases h

/-- A nonempty batch makes the flatten succeed. -/
lemma reshapeFlatten_some_of (x : Tensor4) (h : 1 ≤ x.batch) :
    ∃ t, reshapeFlatten x = some t := by
  unfold reshapeFlatten
  exact ⟨_, if_pos h⟩

/-- A successful fully-connected layer certifies the feature count. -/
lemma linear_some_cond {inF outF : Nat} {w : Nat → Nat → ℚ} {bi : Nat → ℚ}
    {x t : Tensor2} (h : linear inF outF w bi x = some t) : x.cols = inF := by
  unfold linear at h
  split at h
  · assumption
  · cases h

/-- The right feature count makes the fully-connected layer succeed. -/
lemma linear_some_of (inF outF : Nat) (w : Nat → Nat → ℚ) (bi : Nat → ℚ)
    (x : Tensor2) (h : x.cols = inF) : ∃ t, linear inF outF w bi x = some t := by
  unfold linear
  exact ⟨_, if_pos h⟩

/-- C9 (amended): the forward pass succeeds exactly when the batch is
nonempty, the input has exactly one channel, and the two stride-2 pooling
stages leave `⌊h/4⌋·⌊w/4⌋ = 49` spatial positions, so that the flatten yields
the `32·49 = 7*7*32 = 1568` features `fc1` requires.  The MNIST shape
`28 × 28` satisfies this, but it is not the only one. -/
theorem cnn_forward_isSome_iff (p : CNNParams) (x : Tensor4) :
    (CNN.forward p x).isSome = true ↔
      (1 ≤ x.batch ∧ x.channels = 1 ∧ x.height / 4 * (x.width / 4) = 49) := by
  constructor
  · intro h
    obtain ⟨y, hy⟩ := Option.isSome_iff_exists.mp h
    unfold CNN.forward CNN.layer1 CNN.layer2 at hy
    simp only [option_bind_assoc, Option.bind_eq_some] at hy
    obtain ⟨a1, hc1, o1, hp1, a2, hc2, o2, hp2, flat, hr, hl⟩ := hy
    have s1 := conv2d_some_cond hc1
    have sh1 := conv2d_some_shape hc1
    have sp1 := maxPool2d_some_cond hp1
    have shp1 := maxPool2d_some_shape hp1
    rw [(relu_shape a1).2.2.1] at sp1 shp1
    rw [(relu_shape a1).2.2.2] at sp1 shp1
    rw [(relu_shape a1).1, (relu_shape a1).2.1] at shp1
    have s2 := conv2d_some_cond hc2
    have sh2 := conv2d_some_shape hc2
    have sp2 := maxPool2d_some_cond hp2
    have shp2 := maxPool2d_some_shape hp2
    rw [(relu_shape a2).2.2.1] at sp2 shp2
    rw [(relu_shape a2).2.2.2] at sp2 shp2
    rw [(relu_shape a2).1, (relu_shape a2).2.1] at shp2
    have sr := reshapeFlatten_some_cond hr
    have shr := reshapeFlatten_some_shape hr
    have sl := linear_some_cond hl
    refine ⟨?_, s1.1, ?_⟩
    · have hb : o2.batch = x.batch := by
        rw [shp2.1, sh2.1, shp1.1, sh1.1]
      rw [← hb]
      exact sr
    · rw [shr.2] at sl
      rw [shp2.2.1] at sl
      rw [sh2.2.1] at sl
      have hH : o2.height = x.height / 4 := by
        have h1 := sh1.2.2.1
        have h2 := shp1.2.2.1
        have h3 := sh2.2.2.1
        have h4 := shp2.2.2.1
        have g1 := s1.2.1
        have g2 := sp1.1
        have g4 := sp2.1
        omega
      have hW : o2.width = x.width / 4 := by
        have h1 := sh1.2.2.2
        have h2 := shp1.2.2.2
        have h3 := sh2.2.2.2
        have h4 := shp2.2.2.2
        have g1 := s1.2.2
        have g2 := sp1.2
        have g4 := sp2.2
        omega
      rw [hH, hW, Nat.mul_assoc] at sl
      have h32 : (32:Nat) * (x.height / 4 * (x.width / 4)) = 32 * 49 := by
        rw [sl]
      exact Nat.eq_of_mul_eq_mul_left (by norm_num) h32
  · rintro ⟨hb, hc, hprod⟩
    have hH4 : 1 ≤ x.height / 4 := by
      rcases Nat.eq_zero_or_pos (x.height / 4) with h0 | h0
      · rw [h0] at hprod
        simp at hprod
      · exact h0
    have hW4 : 1 ≤ x.width / 4 := by
      rcases Nat.eq_zero_or_pos (x.width / 4) with h0 | h0
      · rw [h0, Nat.mul_zero] at hprod
        cases hprod
      · exact h0
    have hH : 4 ≤ x.height := by omega
    have hW : 4 ≤ x.width := by omega
    obtain ⟨a1, ha1⟩ :=
      conv2d_some_of 1 16 5 1 2 p.conv1w p.conv1b x hc (by omega) (by omega)
    have sh1 := conv2d_some_shape ha1
    have ha1h : a1.height = x.height := by
      have := sh1.2.2.1
      omega
    have ha1w : a1.width = x.width := by
      have := sh1.2.2.2
      omega
    obtain ⟨o1, ho1⟩ := maxPool2d_some_of 2 2 (relu a1)
      (by rw [(relu_shape a1).2.2.1, ha1h]; omega)
      (by rw [(relu_shape a1).2.2.2, ha1w]; omega)
    have shp1 := maxPool2d_some_shape ho1
    rw [(relu_shape a1).2.2.1, ha1h] at shp1
    rw [(relu_shape a1).2.2.2, ha1w] at shp1
    rw [(relu_shape a1).1, (relu_shape a1).2.1, sh1.2.1] at shp1
    have ho1h : o1.height = x.height / 2 := by
      have := shp1.2.2.1
      omega
    have ho1w : o1.width = x.width / 2 := by
      have := shp1.2.2.2
      omega
    obtain ⟨a2, ha2⟩ :=
      conv2d_some_of 16 32 5 1 2 p.conv2w p.conv2b o1 shp1.2.1
        (by omega) (by omega)
    have sh2 := conv2d_some_shape ha2
    have ha2h : a2.height = x.height / 2 := by
      have := sh2.2.2.1
      omega
    have ha2w : a2.width = x.width / 2 := by
      have := sh2.2.2.2
      omega
    obtain ⟨o2, ho2⟩ := maxPool2d_some_of 2 2 (relu a2)
      (by rw [(relu_shape a2).2.2.1, ha2h]; omega)
      (by rw [(relu_shape a2).2.2.2, ha2w]; omega)
    have shp2 := maxPool2d_some_shape ho2
    rw [(relu_shape a2).2.2.1, ha2h] at shp2
    rw [(relu_shape a2).2.2.2, ha2w] at shp2
    rw [(relu_shape a2).1, (relu_shape a2).2.1, sh2.2.1] at shp2
    have ho2b : o2.batch = x.batch := by
      rw [shp2.1, sh2.1, shp1.1, sh1.1]
    obtain ⟨flat, hflat⟩ := reshapeFlatten_some_of o2 (by rw [ho2b]; exact hb)
    have shr := reshapeFlatten_some_shape hflat
    have hcols : flat.cols = 7*7*32 := by
      rw [shr.2, shp2.2.1]
      have e1 : o2.height = x.height / 4 := by
        have := shp2.2.2.1
        omega
      have e2 : o2.width = x.width / 4 := by
        have := shp2.2.2.2
        omega
      rw [e1, e2, Nat.mul_assoc, hprod]
    obtain ⟨y, hy⟩ :=
      linear_some_of (7*7*32) numClasses p.fc1w p.fc1b flat hcols
    unfold CNN.forward CNN.layer1 CNN.layer2
    simp only [ha1, ho1, ha2, ho2, hflat, hy, some_bind, Option.isSome_some]

/-- C9 (counterexample): it is false that a successful forward pass forces the
input spatial size to be 28 × 28 — the all-zero 1 × 1 × 196 × 4 input also
passes every shape check (196/4 · 4/4 = 49, flattening to the required 1568
features), so "for any other spatial size or channel count the forward pass
fails" does not hold of the code. -/
theorem cnn_forward_shape_counterexample :
    ¬ (∀ (p : CNNParams) (x : Tensor4), (CNN.forward p x).isSome = true →
        x.channels = 1 ∧ x.height = 28 ∧ x.width = 28) := by
  intro hclaim
  have h := hclaim zeroParams input196x4 (by decide)
  exact absurd h.2.1 (by decide)


/-- Reduction of `trainStep` when the forward pass fails. -/
lemma trainStep_none {P G : Type} (lib : TorchLib P G) (e i : Nat) (p : P)
    (b : MNISTBatch) (hf : lib.modelForward p b.images = none) :
    trainStep lib e i p b = (none, [TrainEvent.forwardPass e i]) := by
  unfold trainStep
  rw [hf]

/-- Reduction of `trainStep` when the forward pass succeeds. -/
lemma trainStep_some {P G : Type} (lib : TorchLib P G) (e i : Nat) (p : P)
    (b : MNISTBatch) (outs : Tensor2)
    (hf : lib.modelForward p b.images = some outs) :
    trainStep lib e i p b =
      (some (lib.optimStep p (lib.backwardGrad p (lib.criterion outs b.labels) b)),
       [TrainEvent.forwardPass e i, TrainEvent.lossComp e i,
        TrainEvent.zeroGrad e i, TrainEvent.backwardPass e i,
        TrainEvent.optimStep e i]) := by
  unfold trainStep
  rw [hf]

/-- Reduction of the inner loop on an exhausted loader. -/
lemma trainBatches_nil {P G : Type} (lib : TorchLib P G) (e i : Nat) (p : P) :
    trainBatches lib e i p [] = (some p, []) := rfl

/-- Reduction of the inner loop when the first batch fails. -/
lemma trainBatches_cons_none {P G : Type} (lib : TorchLib P G) (e i : Nat)
    (p : P) (b : MNISTBatch) (rest : List MNISTBatch) (evs : List TrainEvent)
    (hstep : trainStep lib e i p b = (none, evs)) :
    trainBatches lib e i p (b :: rest) = (none, evs) := by
  rw [trainBatches, hstep]

/-- Reduction of the inner loop when the first batch succeeds. -/
lemma trainBatches_cons_some {P G : Type} (lib : TorchLib P G) (e i : Nat)
    (p : P) (b : MNISTBatch) (rest : List MNISTBatch) (p1 : P)
    (evs : List TrainEvent) (hstep : trainStep lib e i p b = (some p1, evs)) :
    trainBatches lib e i p (b :: rest) =
      ((trainBatches lib e (i+1) p1 rest).1,
       evs ++ (trainBatches lib e (i+1) p1 rest).2) := by
  rw [trainBatches, hstep]

/-- Peeling the first index off a length-`n+1` iteration of list-valued
bodies. -/
lemma range_flatMap_shift {α : Type} (g : Nat → List α) (n i : Nat) :
    (List.range (n+1)).flatMap (fun k => g (i + k)) =
      g i ++ (List.range n).flatMap (fun k => g (i + 1 + k)) := by
  simp only [List.range_succ_eq_map, List.flatMap_cons, List.flatMap_map,
    Nat.add_zero]
  have he : (fun k => g (i + (k + 1))) = (fun k => g (i + 1 + k)) := by
    funext k
    congr 1
    omega
  rw [he]

/-- Peeling the first index off a length-`n+1` iteration of single events. -/
lemma range_map_shift {α : Type} (g : Nat → α) (n i : Nat) :
    (List.range (n+1)).map (fun k => g (i + k)) =
      g i :: (List.range n).map (fun k => g (i + 1 + k)) := by
  simp only [List.range_succ_eq_map, List.map_cons, List.map_map,
    Nat.add_zero]
  have he : ((fun k => g (i + k)) ∘ fun k => k + 1) = (fun k => g (i + 1 + k)) := by
    funext k
    simp only [Function.comp_apply]
    congr 1
    omega
  rw [he]

/-- The shift lemma instantiated at one batch's event block. -/
lemma range_flatMap_events (e n i : Nat) :
    (List.range (n+1)).flatMap (fun k =>
      [TrainEvent.forwardPass e (i+k), TrainEvent.lossComp e (i+k),
       TrainEvent.zeroGrad e (i+k), TrainEvent.backwardPass e (i+k),
       TrainEvent.optimStep e (i+k)]) =
    [TrainEvent.forwardPass e i, TrainEvent.lossComp e i,
     TrainEvent.zeroGrad e i, TrainEvent.backwardPass e i,
     TrainEvent.optimStep e i] ++
    (List.range n).flatMap (fun k =>
      [TrainEvent.forwardPass e (i+1+k), TrainEvent.lossComp e (i+1+k),
       TrainEvent.zeroGrad e (i+1+k), TrainEvent.backwardPass e (i+1+k),
       TrainEvent.optimStep e (i+1+k)]) :=
  range_flatMap_shift (fun m =>
    [TrainEvent.forwardPass e m, TrainEvent.lossComp e m,
     TrainEvent.zeroGrad e m, TrainEvent.backwardPass e m,
     TrainEvent.optimStep e m]) n i

/-- The shift lemma instantiated at one evaluation event. -/
lemma range_map_evalBatch (n i : Nat) :
    (List.range (n+1)).map (fun k => TrainEvent.evalBatch (i+k)) =
      TrainEvent.evalBatch i ::
        (List.range n).map (fun k => TrainEvent.evalBatch (i+1+k)) :=
  range_map_shift (fun m => TrainEvent.evalBatch m) n i

/-- Trace of a successful inner training loop: one ordered
forward/loss/zero-grad/backward/update block per batch, batches in order. -/
lemma trainBatches_trace {P G : Type} (lib : TorchLib P G) (e : Nat)
    (batches : List MNISTBatch) :
    ∀ (i : Nat) (p : P),
      (trainBatches lib e i p batches).1.isSome = true →
      (trainBatches lib e i p batches).2 =
        (List.range batches.length).flatMap (fun k =>
          [TrainEvent.forwardPass e (i+k), TrainEvent.lossComp e (i+k),
           TrainEvent.zeroGrad e (i+k), TrainEvent.backwardPass e (i+k),
           TrainEvent.optimStep e (i+k)]) := by
  induction batches with
  | nil =>
    intro i p _
    rw [trainBatches_nil]
    rfl
  | cons b rest ih =>
    intro i p h
    rcases hf : lib.modelForward p b.images with _ | outs
    · rw [trainBatches_cons_none lib e i p b rest _ (trainStep_none lib e i p b hf)] at h
      simp at h
    · rw [trainBatches_cons_some lib e i p b rest _ _
        (trainStep_some lib e i p b outs hf)] at h ⊢
      dsimp only at h ⊢
      rw [List.length_cons, range_flatMap_events]
      congr 1
      exact ih (i+1) _ h

/-- Reduction of the epoch loop on an exhausted epoch list. -/
lemma trainEpochs_nil {P G : Type} (lib : TorchLib P G)
    (batches : List MNISTBatch) (p : P) :
    trainEpochs lib batches [] p = (some p, []) := rfl

/-- Reduction of the epoch loop when the first epoch fails. -/
lemma trainEpochs_cons_none {P G : Type} (lib : TorchLib P G)
    (batches : List MNISTBatch) (e : Nat) (es : List Nat) (p : P)
    (evs : List TrainEvent) (hb : trainBatches lib e 0 p batches = (none, evs)) :
    trainEpochs lib batches (e :: es) p = (none, evs) := by
  rw [trainEpochs, hb]

/-- Reduction of the epoch loop when the first epoch succeeds. -/
lemma trainEpochs_cons_some {P G : Type} (lib : TorchLib P G)
    (batches : List MNISTBatch) (e : Nat) (es : List Nat) (p : P) (p1 : P)
    (evs : List TrainEvent)
    (hb : trainBatches lib e 0 p batches = (some p1, evs)) :
    trainEpochs lib batches (e :: es) p =
      ((trainEpochs lib batches es p1).1,
       evs ++ (trainEpochs lib batches es p1).2) := by
  rw [trainEpochs, hb]

/-- Trace of a successful outer training loop: the inner-loop trace of each
listed epoch, epochs in order. -/
lemma trainEpochs_trace {P G : Type} (lib : TorchLib P G)
    (batches : List MNISTBatch) (es : List Nat) :
    ∀ (p : P),
      (trainEpochs lib batches es p).1.isSome = true →
      (trainEpochs lib batches es p).2 =
        es.flatMap (fun e => (List.range batches.length).flatMap (fun k =>
          [TrainEvent.forwardPass e k, TrainEvent.lossComp e k,
           TrainEvent.zeroGrad e k, TrainEvent.backwardPass e k,
           TrainEvent.optimStep e k])) := by
  induction es with
  | nil =>
    intro p _
    rw [trainEpochs_nil]
    rfl
  | cons e es ih =>
    intro p h
    rcases hb : trainBatches lib e 0 p batches with ⟨op, evs⟩
    cases op with
    | none =>
      rw [trainEpochs_cons_none lib batches e es p evs hb] at h
      simp at h
    | some p1 =>
      rw [trainEpochs_cons_some lib batches e es p p1 evs hb] at h ⊢
      dsimp only at h ⊢
      rw [List.flatMap_cons]
      have hevs : evs = (List.range batches.length).flatMap (fun k =>
          [TrainEvent.forwardPass e k, TrainEvent.lossComp e k,
           TrainEvent.zeroGrad e k, TrainEvent.backwardPass e k,
           TrainEvent.optimStep e k]) := by
        have ht := trainBatches_trace lib e batches 0 p (by rw [hb]; rfl)
        rw [hb] at ht
        simpa using ht
      rw [hevs]
      congr 1
      exact ih p1 h

/-- Reduction of the evaluation loop on an exhausted loader. -/
lemma evalBatches_nil {P : Type} (modelF : P → Tensor4 → Option Tensor2)
    (i : Nat) (s : ProcState P) :
    evalBatches modelF i s [] = (some s, []) := rfl

/-- Reduction of the evaluation loop when the first batch's forward fails. -/
lemma evalBatches_cons_none {P : Type} (modelF : P → Tensor4 → Option Tensor2)
    (i : Nat) (s : ProcState P) (b : MNISTBatch) (rest : List MNISTBatch)
    (hf : modelF s.params b.images = none) :
    evalBatches modelF i s (b :: rest) = (none, [TrainEvent.evalBatch i]) := by
  rw [evalBatches, hf]

/-- Reduction of the evaluation loop when the first batch's forward succeeds:
the counters are bumped and the loop continues on the rest. -/
lemma evalBatches_cons_some {P : Type} (modelF : P → Tensor4 → Option Tensor2)
    (i : Nat) (s : ProcState P) (b : MNISTBatch) (rest : List MNISTBatch)
    (outs : Tensor2) (hf : modelF s.params b.images = some outs) :
    evalBatches modelF i s (b :: rest) =
      ((evalBatches modelF (i+1)
          { s with total := s.total + b.labels.length
                   correct := s.correct + correctInBatch outs b.labels } rest).1,
       TrainEvent.evalBatch i ::
        (evalBatches modelF (i+1)
          { s with total := s.total + b.labels.length
                   correct := s.correct + correctInBatch outs b.labels } rest).2) := by
  rw [evalBatches, hf]

/-- Combined specification of a successful evaluation loop: the model
parameters are untouched, `total` grows by the number of labels seen,
`correct` grows by the per-batch match counts (computed with the unchanged
parameters), and the trace is one event per batch, in order. -/
lemma evalBatches_spec {P : Type} (modelF : P → Tensor4 → Option Tensor2)
    (batches : List MNISTBatch) :
    ∀ (i : Nat) (s s' : ProcState P),
      (evalBatches modelF i s batches).1 = some s' →
      s'.params = s.params ∧
      s'.total = s.total + (batches.map (fun b => b.labels.length)).sum ∧
      s'.correct = s.correct + (batches.map (correctOfBatch modelF s.params)).sum ∧
      (evalBatches modelF i s batches).2 =
        (List.range batches.length).map (fun k => TrainEvent.evalBatch (i + k)) := by
  induction batches with
  | nil =>
    intro i s s' h
    rw [evalBatches_nil] at h
    simp only at h
    obtain rfl : s = s' := by
      exact Option.some.inj h
    refine ⟨rfl, by simp, by simp, ?_⟩
    rfl
  | cons b rest ih =>
    intro i s s' h
    rcases hf : modelF s.params b.images with _ | outs
    · rw [evalBatches_cons_none modelF i s b rest hf] at h
      simp at h
    · rw [evalBatches_cons_some modelF i s b rest outs hf] at h ⊢
      dsimp only at h ⊢
      obtain ⟨hp, ht, hc, htr⟩ := ih (i+1) _ s' h
      dsimp only at hp ht hc
      have hcb : correctOfBatch modelF s.params b = correctInBatch outs b.labels := by
        unfold correctOfBatch
        rw [hf]
      refine ⟨hp, ?_, ?_, ?_⟩
      · rw [List.map_cons, List.sum_cons]
        omega
      · rw [List.map_cons, List.sum_cons, hcb]
        omega
      · rw [List.length_cons, range_map_evalBatch]
        congr 1

/-- Reduction of the whole script when the training loop fails. -/
lemma fullProgram_none {P G : Type} (lib : TorchLib P G) (nEpochs : Nat)
    (trainData testData : List MNISTBatch) (s : ProcState P)
    (evs : List TrainEvent)
    (hT : trainLoop lib nEpochs trainData s.params = (none, evs)) :
    fullProgram lib nEpochs trainData testData s = (none, evs) := by
  unfold fullProgram
  rw [hT]

/-- Reduction of the whole script when the training loop succeeds: the
evaluation block runs afterwards on the trained parameters. -/
lemma fullProgram_some {P G : Type} (lib : TorchLib P G) (nEpochs : Nat)
    (trainData testData : List MNISTBatch) (s : ProcState P) (p1 : P)
    (evs : List TrainEvent)
    (hT : trainLoop lib nEpochs trainData s.params = (some p1, evs)) :
    fullProgram lib nEpochs trainData testData s =
      ((evalBlock lib.modelForward testData { s with params := p1 }).1,
       evs ++ (evalBlock lib.modelForward testData { s with params := p1 }).2) := by
  unfold fullProgram
  rw [hT]

/-- C4: a successful run of the script produces exactly the event sequence of
a fixed iteration over `nEpochs` epochs, each iterating over the training
batches in order, with the block forward → loss → zero-grad → backward →
optimizer-update completed for each batch before the next batch's events, and
the no-gradient accuracy pass's events all strictly after the entire training
loop. -/
theorem training_loop_trace_shape {P G : Type} (lib : TorchLib P G)
    (nEpochs : Nat) (trainData testData : List MNISTBatch)
    (s s' : ProcState P) (evs : List TrainEvent)
    (h : fullProgram lib nEpochs trainData testData s = (some s', evs)) :
    evs = ((List.range nEpochs).flatMap fun e =>
        (List.range trainData.length).flatMap fun i =>
          [TrainEvent.forwardPass e i, TrainEvent.lossComp e i,
           TrainEvent.zeroGrad e i, TrainEvent.backwardPass e i,
           TrainEvent.optimStep e i]) ++
      (List.range testData.length).map TrainEvent.evalBatch := by
  rcases hT : trainLoop lib nEpochs trainData s.params with ⟨oT, evsT⟩
  cases oT with
  | none =>
    rw [fullProgram_none lib nEpochs trainData testData s evsT hT] at h
    exact absurd (congrArg Prod.fst h) (by simp)
  | some p1 =>
    rw [fullProgram_some lib nEpochs trainData testData s p1 evsT hT] at h
    have h1 : (evalBlock lib.modelForward testData { s with params := p1 }).1 =
        some s' := congrArg Prod.fst h
    have h2 : evsT ++ (evalBlock lib.modelForward testData
        { s with params := p1 }).2 = evs := congrArg Prod.snd h
    have hT' : trainEpochs lib trainData (List.range nEpochs) s.params =
        (some p1, evsT) := hT
    have hTsome : (trainEpochs lib trainData (List.range nEpochs) s.params).1.isSome
        = true := by
      rw [hT']
      rfl
    have hTt := trainEpochs_trace lib trainData (List.range nEpochs) s.params hTsome
    rw [hT'] at hTt
    have hTt' : evsT = (List.range nEpochs).flatMap (fun e =>
        (List.range trainData.length).flatMap fun i =>
          [TrainEvent.forwardPass e i, TrainEvent.lossComp e i,
           TrainEvent.zeroGrad e i, TrainEvent.backwardPass e i,
           TrainEvent.optimStep e i]) := by
      simpa using hTt
    unfold evalBlock at h1
    have hE := (evalBatches_spec lib.modelForward testData 0 _ s' h1).2.2.2
    rw [← h2, hTt']
    congr 1
    unfold evalBlock
    rw [hE]
    simp

/-- Witness for C4 at a concrete two-epoch, one-batch run of the abstract
library instantiation: the produced trace is the predicted shape. -/
theorem training_loop_trace_shape_witness :
    fullProgram natLib 2 [batch2] [batch2] initState =
      (some { params := 44, correct := 1, total := 2 },
       [TrainEvent.forwardPass 0 0, TrainEvent.lossComp 0 0,
        TrainEvent.zeroGrad 0 0, TrainEvent.backwardPass 0 0,
        TrainEvent.optimStep 0 0,
        TrainEvent.forwardPass 1 0, TrainEvent.lossComp 1 0,
        TrainEvent.zeroGrad 1 0, TrainEvent.backwardPass 1 0,
        TrainEvent.optimStep 1 0,
        TrainEvent.evalBatch 0]) ∧
    [TrainEvent.forwardPass 0 0, TrainEvent.lossComp 0 0,
     TrainEvent.zeroGrad 0 0, TrainEvent.backwardPass 0 0,
     TrainEvent.optimStep 0 0,
     TrainEvent.forwardPass 1 0, TrainEvent.lossComp 1 0,
     TrainEvent.zeroGrad 1 0, TrainEvent.backwardPass 1 0,
     TrainEvent.optimStep 1 0,
     TrainEvent.evalBatch 0] =
      ((List.range 2).flatMap fun e =>
        (List.range 1).flatMap fun i =>
          [TrainEvent.forwardPass e i, TrainEvent.lossComp e i,
           TrainEvent.zeroGrad e i, TrainEvent.backwardPass e i,
           TrainEvent.optimStep e i]) ++
      (List.range 1).map TrainEvent.evalBatch :=
  ⟨by decide,
   training_loop_trace_shape natLib 2 [batch2] [batch2] initState
     { params := 44, correct := 1, total := 2 } _ (by decide)⟩

/-- C5: in a successful evaluation block the counters start from 0 and end
with `total` equal to the number of test samples iterated (the sum of each
batch's label count), `correct` equal to the summed per-batch counts of
positions where the argmax of the model outputs equals the label, and the
printed accuracy is exactly `100*correct/total`; the block returns nothing
else (no parameter update, no file output is part of its state). -/
theorem eval_counters_spec {P : Type} (modelF : P → Tensor4 → Option Tensor2)
    (batches : List MNISTBatch) (s s' : ProcState P)
    (h : (evalBlock modelF batches s).1 = some s') :
    s'.total = (batches.map (fun b => b.labels.length)).sum ∧
    s'.correct = (batches.map (correctOfBatch modelF s.params)).sum ∧
    accuracy s' = 100 * (s'.correct : ℚ) / (s'.total : ℚ) := by
  unfold evalBlock at h
  obtain ⟨hp, ht, hc, -⟩ := evalBatches_spec modelF batches 0 _ s' h
  dsimp only at hp ht hc
  exact ⟨by rw [ht]; omega, by rw [hc]; omega, rfl⟩

/-- Witness for C5: a two-sample batch with labels `[0, 1]` against the
constant-zero model yields `total = 2`, `correct = 1`, accuracy `100·1/2`. -/
theorem eval_counters_spec_witness :
    (evalBlock natLib.modelForward [batch2] initState).1 =
        some { params := 42, correct := 1, total := 2 } ∧
      (({ params := 42, correct := 1, total := 2 } : ProcState Nat).total =
          ([batch2].map (fun b => b.labels.length)).sum ∧
        ({ params := 42, correct := 1, total := 2 } : ProcState Nat).correct =
          ([batch2].map (correctOfBatch natLib.modelForward initState.params)).sum ∧
        accuracy ({ params := 42, correct := 1, total := 2 } : ProcState Nat) =
          100 * ((({ params := 42, correct := 1, total := 2 } : ProcState Nat).correct : ℚ)) /
            ((({ params := 42, correct := 1, total := 2 } : ProcState Nat).total : ℚ))) :=
  ⟨by decide,
   eval_counters_spec natLib.modelForward [batch2] initState
     { params := 42, correct := 1, total := 2 } (by decide)⟩

/-- C8: the evaluation block never mutates the model parameters — after a
successful run of the whole block the parameter component of the process
state is exactly what it was before. -/
theorem eval_preserves_params {P : Type} (modelF : P → Tensor4 → Option Tensor2)
    (batches : List MNISTBatch) (s s' : ProcState P)
    (h : (evalBlock modelF batches s).1 = some s') :
    s'.params = s.params := by
  unfold evalBlock at h
  have hp := (evalBatches_spec modelF batches 0 _ s' h).1
  simpa using hp

/-- Witness for C8: evaluating with parameter value 42 leaves it at 42. -/
theorem eval_preserves_params_witness :
    (evalBlock natLib.modelForward [batch2] initState).1 =
        some { params := 42, correct := 1, total := 2 } ∧
      ({ params := 42, correct := 1, total := 2 } : ProcState Nat).params =
        initState.params :=
  ⟨by decide,
   eval_preserves_params natLib.modelForward [batch2] initState
     { params := 42, correct := 1, total := 2 } (by decide)⟩

/-- Per-batch match counts never exceed the batch's label count. -/
lemma correctOfBatch_le {P : Type} (modelF : P → Tensor4 → Option Tensor2)
    (p : P) (b : MNISTBatch) :
    correctOfBatch modelF p b ≤ b.labels.length := by
  unfold correctOfBatch
  rcases h : modelF p b.images with _ | o
  · exact Nat.zero_le _
  · unfold correctInBatch
    refine le_trans (List.countP_le_length _) ?_
    rw [List.length_zip]
    exact min_le_right _ _

/-- Pointwise bounds add up over a mapped sum. -/
lemma map_sum_le {α : Type} (l : List α) (f g : α → Nat)
    (h : ∀ a ∈ l, f a ≤ g a) : (l.map f).sum ≤ (l.map g).sum := by
  induction l with
  | nil => simp
  | cons a t ih =>
    simp only [List.map_cons, List.sum_cons]
    have h1 := h a (by simp)
    have h2 := ih (fun x hx => h x (by simp [hx]))
    omega

/-- C10: after any successful evaluation run (hence after each processed
batch, since the statement holds for every batch list) the counters satisfy
`0 ≤ correct ≤ total`, and whenever `total > 0` the printed accuracy
`100*correct/total` lies in `[0, 100]`. -/
theorem eval_invariant_correct_le_total {P : Type}
    (modelF : P → Tensor4 → Option Tensor2) (batches : List MNISTBatch)
    (s s' : ProcState P) (h : (evalBlock modelF batches s).1 = some s') :
    s'.correct ≤ s'.total ∧
      (0 < s'.total → 0 ≤ accuracy s' ∧ accuracy s' ≤ 100) := by
  unfold evalBlock at h
  obtain ⟨-, ht, hc, -⟩ := evalBatches_spec modelF batches 0 _ s' h
  dsimp only at ht hc
  have hle : s'.correct ≤ s'.total := by
    rw [ht, hc]
    have := map_sum_le batches (correctOfBatch modelF s.params)
      (fun b => b.labels.length) (fun b _ => correctOfBatch_le modelF s.params b)
    omega
  refine ⟨hle, fun hpos => ?_⟩
  unfold accuracy
  constructor
  · positivity
  · have htq : (0:ℚ) < (s'.total : ℚ) := by exact_mod_cast hpos
    rw [div_le_iff₀ htq]
    have hcq : (s'.correct : ℚ) ≤ (s'.total : ℚ) := by exact_mod_cast hle
    nlinarith

/-- Witness for C10: the concrete run gives `correct = 1 ≤ 2 = total` and
accuracy 50, inside `[0, 100]`. -/
theorem eval_invariant_correct_le_total_witness :
    (evalBlock natLib.modelForward [batch2] initState).1 =
        some { params := 42, correct := 1, total := 2 } ∧
      (({ params := 42, correct := 1, total := 2 } : ProcState Nat).correct ≤
          ({ params := 42, correct := 1, total := 2 } : ProcState Nat).total ∧
        (0 < ({ params := 42, correct := 1, total := 2 } : ProcState Nat).total →
          0 ≤ accuracy ({ params := 42, correct := 1, total := 2 } : ProcState Nat) ∧
            accuracy ({ params := 42, correct := 1, total := 2 } : ProcState Nat) ≤ 100)) :=
  ⟨by decide,
   eval_invariant_correct_le_total natLib.modelForward [batch2] initState
     { params := 42, correct := 1, total := 2 } (by decide)⟩

/-- A fold of `max` over an all-zero list of rationals is zero. -/
lemma foldr_max_zero (l : List ℚ) (h : ∀ a ∈ l, a = 0) :
    l.foldr max 0 = 0 := by
  induction l with
  | nil => rfl
  | cons a t ih =>
    simp only [List.foldr_cons]
    rw [h a (by simp), ih (fun b hb => h b (by simp [hb]))]
    simp

/-- A parameter state is at distance zero from itself. -/
lemma paramDist_self (p : CNNParams) : paramDist p p = 0 := by
  unfold paramDist
  apply foldr_max_zero
  intro a ha
  obtain ⟨ix, -, rfl⟩ := List.mem_map.mp ha
  simp

/-- C6: the training procedure is deterministic in the seed — two runs with
equal seeds on the same data ordering and the same initial parameters produce
identical final parameters, hence parameter values within every nonnegative
tolerance of each other. -/
theorem training_two_run_determinism {G : Type} (lib : TorchLib CNNParams G)
    (seed1 seed2 : Nat) (batches : List MNISTBatch) (p : CNNParams)
    (q1 q2 : CNNParams) (tol : ℚ) (hs : seed1 = seed2)
    (h1 : (trainingRun lib seed1 batches p).1 = some q1)
    (h2 : (trainingRun lib seed2 batches p).1 = some q2)
    (htol : 0 ≤ tol) : paramDist q1 q2 ≤ tol := by
  subst hs
  rw [h1] at h2
  obtain rfl : q1 = q2 := Option.some.inj h2
  rw [paramDist_self]
  exact htol

/-- Witness for C6: two runs with seed 0 from the all-zero parameters both
end at the all-zero parameters, at distance at most 0. -/
theorem training_two_run_determinism_witness :
    (0 : Nat) = 0 ∧
      (trainingRun cnnLib 0 [] zeroParams).1 = some zeroParams ∧
      (0:ℚ) ≤ 0 ∧
      paramDist zeroParams zeroParams ≤ 0 :=
  ⟨rfl, rfl, le_refl 0,
   training_two_run_determinism cnnLib 0 0 [] zeroParams zeroParams zeroParams 0
     rfl rfl rfl (le_refl 0)⟩
